import Mathlib

/-!
Verification of the `lda` Go package (RadiusNetworks/lda, file `lda.go`)
against its natural-language specification.

Shallow embedding notes.
* Go `float64` values are modelled by `FloatVal`: an exact rational for a
  finite value, plus the IEEE special values `+Inf`, `-Inf` and `NaN`.
  Arithmetic on finite values is exact rational arithmetic (an idealization
  of rounding); the special-value rules (`x/0`, `Inf + Inf`, comparisons
  with `NaN`, ...) follow IEEE-754 as Go implements them, since several
  claims hinge on exactly those cases.  Rational arithmetic has no signed
  zero; the divisors reached in this development are `|eigenvalue|` values,
  which are non-negative, so `+0` is the faithful reading.
* Where the source manipulates only finite statistics (matrix entries,
  class means, scatter matrices) the embedding uses plain `ℚ`.
* Matrices are `QMat` (dimensions plus an entry function); vectors are
  `List ℚ`.  gonum panics (shape mismatches, zero-size allocations,
  out-of-range column access) are modelled by `Option`: `none` is a panic.
* `LinearDiscriminant` error returns are `Option String` (`none` = the
  `return nil` at lda.go:171).  The validation phase (lda.go:39-87) is
  total: it indexes `labels[0]` only after the emptiness check, so the
  embedding needs no panic case there.
-/

/-- Model of a Go `float64` value: `nan`, a signed infinity (`inf true` is
`+Inf`, `inf false` is `-Inf`), or an exact finite rational. -/
inductive FloatVal where
  | nan : FloatVal
  | inf : Bool → FloatVal
  | fin : ℚ → FloatVal
deriving DecidableEq, Repr

/-- Predicate for the `NaN` value. -/
def FloatVal.isNaN : FloatVal → Bool
  | .nan => true
  | _ => false

/-- IEEE negation. -/
def fneg : FloatVal → FloatVal
  | .nan => .nan
  | .inf s => .inf (!s)
  | .fin a => .fin (-a)

/-- IEEE addition (exact on finite values). -/
def fadd : FloatVal → FloatVal → FloatVal
  | .nan, _ => .nan
  | _, .nan => .nan
  | .inf s, .inf t => if s = t then .inf s else .nan
  | .inf s, .fin _ => .inf s
  | .fin _, .inf t => .inf t
  | .fin a, .fin b => .fin (a + b)

/-- IEEE subtraction, as `x + (-y)`. -/
def fsub (x y : FloatVal) : FloatVal := fadd x (fneg y)

/-- IEEE multiplication (exact on finite values). -/
def fmul : FloatVal → FloatVal → FloatVal
  | .nan, _ => .nan
  | _, .nan => .nan
  | .inf s, .inf t => .inf (s == t)
  | .inf s, .fin a => if a = 0 then .nan else .inf (s == decide (0 < a))
  | .fin a, .inf t => if a = 0 then .nan else .inf (t == decide (0 < a))
  | .fin a, .fin b => .fin (a * b)

/-- IEEE division.  Division of a nonzero finite value by (positive) zero
gives a signed infinity, `0/0` gives `NaN` — this is Go behaviour and is
what lda.go:250 relies on when an eigenvalue magnitude is zero. -/
def fdiv : FloatVal → FloatVal → FloatVal
  | .nan, _ => .nan
  | _, .nan => .nan
  | .inf _, .inf _ => .nan
  | .inf s, .fin a => .inf (s == decide (0 ≤ a))
  | .fin _, .inf _ => .fin 0
  | .fin a, .fin b =>
      if b = 0 then (if a = 0 then .nan else .inf (decide (0 < a)))
      else .fin (a / b)

/-- IEEE strict less-than: any comparison involving `NaN` is false. -/
def flt : FloatVal → FloatVal → Bool
  | .nan, _ => false
  | _, .nan => false
  | .inf s, .inf t => !s && t
  | .inf s, .fin _ => !s
  | .fin _, .inf t => t
  | .fin a, .fin b => decide (a < b)

/-- One iteration of the class loop of `Predict` (lda.go:253-256): keep the
running best `(y, max)`, replacing it when `max < f`. -/
def step (s : ℕ → FloatVal) (acc : ℕ × FloatVal) (i : ℕ) : ℕ × FloatVal :=
  if flt acc.2 (s i) = true then (i, s i) else acc

/-- The whole best-class scan of `Predict` (lda.go:232-257): start from
`y = 0`, `max = -Inf` and fold the update over classes `0..k-1`. -/
def predictScan (s : ℕ → FloatVal) (k : ℕ) : ℕ × FloatVal :=
  (List.range k).foldl (step s) (0, FloatVal.inf false)

/-- Invariant of the scan after the first `i` classes have been examined:
the accumulator index is an already-scanned class (or the initial `0`),
no scanned score strictly beats the accumulated maximum, the accumulated
maximum is the score of the accumulated index (or still the initial
`-Inf`), and every class before the accumulated index scored strictly
less. -/
def ScanInv (s : ℕ → FloatVal) (i : ℕ) (acc : ℕ × FloatVal) : Prop :=
  (acc.1 < i ∨ acc = (0, FloatVal.inf false)) ∧
  (∀ j, j < i → flt acc.2 (s j) = false) ∧
  (acc.2 = s acc.1 ∨ acc = (0, FloatVal.inf false)) ∧
  (∀ j, j < acc.1 → flt (s j) acc.2 = true)

/-- Rational matrix: dimensions plus a (total) entry function; only entries
with `i < rows`, `j < cols` model real data. -/
structure QMat where
  rows : ℕ
  cols : ℕ
  entry : ℕ → ℕ → ℚ

/-- The fields of the Go `LD` struct that `LinearDiscriminant` assigns on
paths that can still return an error (`ld.n`, `ld.p` at lda.go:40 and
`ld.k` at lda.go:78).  The remaining fields (`mu`, `ct`, the eigen state)
are assigned only after the last error return (lda.go:86), so the
error-path state is fully described by these three; the numeric fields are
modelled separately (`muVal`, `Cw`, `LDModel`). -/
structure LDState where
  n : ℕ
  p : ℕ
  k : ℕ
deriving DecidableEq, Repr

/-- The fitted model consumed by `Transform` and `Predict`: the struct
fields of `LD` after a successful fit.  `mu` is the k×p class-mean matrix,
`ct` the per-class constant terms (`log` priors, lda.go:128), `evecs` the
real parts of the right eigenvector matrix (`getRealVectors`,
lda.go:188-192), and `evalAbs` the complex magnitudes `cmplx.Abs(evals[j])`
of the eigenvalues — every downstream use of the eigenvalues goes through
`cmplx.Abs` (lda.go:250), so the model carries the magnitudes. -/
structure LDModel where
  n : ℕ
  p : ℕ
  k : ℕ
  ct : List FloatVal
  mu : List (List ℚ)
  evecs : List (List ℚ)
  evalAbs : List FloatVal

/-- The fixed tolerance of lda.go:76 (`1e-4`). -/
def tolQ : ℚ := 1 / 10000

/-- The sorted list of distinct labels built at lda.go:44-57: collect the
distinct values of `y` and sort ascending.  (The source collects them in
first-occurrence order before sorting; order before the sort is
irrelevant, so `dedup` is used.) -/
def sortedLabels (y : List ℤ) : List ℤ :=
  (y.dedup).insertionSort (fun a b => a ≤ b)

/-- The scan of lda.go:65-72 from the second element on: at each element,
first the negative-label check, then the gap check against the previous
element. -/
def checkLabelsAux : ℤ → List ℤ → Option String
  | _, [] => none
  | prev, h :: t =>
      if h < 0 then some "Negative class label"
      else if 1 < h - prev then some "Missing class"
      else checkLabelsAux h t

/-- The whole label loop of lda.go:65-72: at index 0 only the
negative-label check runs (the gap check needs a predecessor). -/
def checkLabels : List ℤ → Option String
  | [] => none
  | h :: t => if h < 0 then some "Negative class label" else checkLabelsAux h t

/-- Error-path embedding of `LinearDiscriminant` (lda.go:39-171), as a
state transformer on the fields written before the last error return.
`n`, `p` are the dimensions of `x` (lda.go:40, assigned before any check);
`y` is the label slice.  Each branch mirrors one `return` of the source,
in source order; the final `(ld2, none)` is the `return nil` at
lda.go:171 — between lda.go:87 and 171 the source has no further `return`
statement (the error of `CwInverse.Inverse` at lda.go:161 is discarded),
so no input reaches any other error.  A nil slice and an empty slice are
identified (`y = []` skips the size check, as `y != nil` does in Go). -/
def LinearDiscriminant (n p : ℕ) (y : List ℤ) (ld : LDState) : LDState × Option String :=
  if y ≠ [] ∧ y.length ≠ n then (⟨n, p, ld.k⟩, some "The sizes of X and Y do not match")
  else if sortedLabels y = [] then (⟨n, p, ld.k⟩, some "No data to analyze")
  else if (sortedLabels y).getD 0 0 ≠ 0 then
    (⟨n, p, ld.k⟩, some "Label does not start from zero")
  else if checkLabels (sortedLabels y) ≠ none then (⟨n, p, ld.k⟩, checkLabels (sortedLabels y))
  else if (sortedLabels y).length < 2 then
    (⟨n, p, (sortedLabels y).length⟩, some "Only one class")
  else if tolQ < 0 then (⟨n, p, (sortedLabels y).length⟩, some "Invalid tol")
  else if n ≤ (sortedLabels y).length then
    (⟨n, p, (sortedLabels y).length⟩, some "Sample size is too small")
  else (⟨n, p, (sortedLabels y).length⟩, none)

/-- Number of training rows of class `c`: the count accumulated into
`ni[c]` (lda.go:107) and into `labelMap[c]` (lda.go:46-53). -/
def ni (y : List ℤ) (c : ℤ) : ℕ := (y.filter (fun a => a = c)).length

/-- Class mean `ld.mu.At(c, j)` after lda.go:105-117: the per-class sum of
column `j` divided by the class count. -/
def muVal (x : QMat) (y : List ℤ) (c : ℤ) (j : ℕ) : ℚ :=
  (∑ i ∈ Finset.range x.rows, if y.getD i 0 = c then x.entry i j else 0) / (ni y c : ℚ)

/-- Within-class scatter entry `Cw.At(j, l)` after the accumulation loop of
lda.go:137-143: for every observation, the product of its residuals from
its own class mean in columns `j` and `l`, summed over all observations.
The loop writes each unordered pair once through `SetSym`, which stores
the value symmetrically; this closed form is symmetric in `j, l` and is
the value read back by `Cw.At`.  No statement between this loop and the
inversion `CwInverse.Inverse(Cw)` (lda.go:161) modifies `Cw` — lda.go:144
only squares the (otherwise unused) tolerance — so this is also exactly
the matrix handed to the inversion and hence to the eigenproblem. -/
def Cw (x : QMat) (y : List ℤ) (j l : ℕ) : ℚ :=
  ∑ i ∈ Finset.range x.rows,
    (x.entry i j - muVal x y (y.getD i 0) j) * (x.entry i l - muVal x y (y.getD i 0) l)

/-- Number of distinct classes `k = len(labels)` (lda.go:78). -/
def numClasses (y : List ℤ) : ℕ := (sortedLabels y).length

/-- Modelled from the spec: the degrees-of-freedom-normalized within-class
scatter matrix — every entry of `Cw` divided by `(n - k)` ("After
accumulation, divide every entry by `(n - k)`").  The source never
computes this quantity; the definition follows the words of the spec so
that it can be compared with the matrix the source actually inverts. -/
def SwSpec (x : QMat) (y : List ℤ) (j l : ℕ) : ℚ :=
  Cw x y j l / ((x.rows : ℚ) - (numClasses y : ℚ))

/-- Embedding of `Transform` (lda.go:201-212), with gonum panics as `none`,
in source order: `mat.NewDense(ld.p, n, nil)` panics on a zero dimension
(lda.go:203); `mat.Col(nil, i, evecs)` panics once `i` reaches the column
count `p` of the eigenvector matrix, i.e. when `targetDims > p`
(lda.go:205); `mat.NewDense(ld.n, n, nil)` panics on `ld.n = 0`
(lda.go:208); `result.Mul(x, W)` panics when the inner dimensions disagree
(`x` must have `p` columns) or when the preallocated `ld.n × targetDims`
receiver does not match the `m × targetDims` product, i.e. when the row
count of `x` differs from the training row count (lda.go:209).  On the
non-panicking path the result is `x · W`, `W` being the first `targetDims`
columns of the real parts of the eigenvectors. -/
def Transform (ld : LDModel) (x : QMat) (t : ℕ) : Option QMat :=
  if ld.p = 0 ∨ t = 0 then none
  else if ld.p < t then none
  else if ld.n = 0 then none
  else if x.cols ≠ ld.p ∨ x.rows ≠ ld.n then none
  else some ⟨ld.n, t,
    fun i j => ∑ l ∈ Finset.range ld.p, x.entry i l * (ld.evecs.getD l []).getD j 0⟩

/-- The centered vector `d[j] = x[j] - ld.mu.At(i, j)` of lda.go:239-241
for class `i`. -/
def dVal (ld : LDModel) (x : List ℚ) (i j : ℕ) : ℚ :=
  x.getD j 0 - (ld.mu.getD i []).getD j 0

/-- Entry `j` of `UX = evecsᵀ · d` (lda.go:242-245): row `j` of the
transposed eigenvector matrix dotted with the centered vector. -/
def uVal (ld : LDModel) (x : List ℚ) (i j : ℕ) : ℚ :=
  ∑ l ∈ Finset.range ld.p, (ld.evecs.getD l []).getD j 0 * dVal ld x i l

/-- One term of the score sum of lda.go:250:
`UX.At(j,0) * UX.At(j,0) / cmplx.Abs(evals[j])`.  The division is written
exactly as in the source — there is no branch on a zero magnitude. -/
def scoreTerm (ld : LDModel) (x : List ℚ) (i j : ℕ) : FloatVal :=
  fdiv (.fin (uVal ld x i j * uVal ld x i j)) (ld.evalAbs.getD j .nan)

/-- The class-`i` discriminant score `f = ld.ct[i] - 0.5*f` of
lda.go:246-252: fold the term sum over `j = 0..p-1` starting from `0.0`,
then combine with the constant term. -/
def score (ld : LDModel) (x : List ℚ) (i : ℕ) : FloatVal :=
  fsub (ld.ct.getD i .nan)
    (fmul (.fin (1/2))
      ((List.range ld.p).foldl (fun f j => fadd f (scoreTerm ld x i j)) (.fin 0)))

/-- Embedding of `Predict` (lda.go:227-259): reject an input whose length
differs from `ld.p` (lda.go:229-231), otherwise run the best-class scan
over the per-class scores and return the winning index with a nil
error. -/
def Predict (ld : LDModel) (x : List ℚ) : Except String ℕ :=
  if x.length ≠ ld.p then Except.error "Invalid input vector size"
  else Except.ok (predictScan (score ld x) ld.k).1

/-- State-passing form of `Transform`: the method reads `ld.eigen`, `ld.p`
and `ld.n` but its body (lda.go:201-212) contains no assignment to any
field of the receiver, so the state component is returned unchanged. -/
def TransformS (ld : LDModel) (x : QMat) (t : ℕ) : LDModel × Option QMat :=
  (ld, Transform ld x t)

/-- State-passing form of `Predict`: the method body (lda.go:227-259)
writes only the locals `y`, `max`, `d`, `ux`, `UX`, `f`, `evecs`, `evals`
and never a field of the receiver, so the state component is returned
unchanged. -/
def PredictS (ld : LDModel) (x : List ℚ) : LDModel × Except String ℕ :=
  (ld, Predict ld x)

/-- C1 example: 5×2 training matrix whose first column is constant (zero
within-class variance on feature 0); the second column is `i`. -/
def X1 : QMat := ⟨5, 2, fun i j => if j = 0 then 2 else (i : ℚ)⟩

/-- C1 example labels: valid (classes 0 and 1, `n = 5 > k = 2`). -/
def Y1 : List ℤ := [0, 0, 0, 1, 1]

/-- C2 example: 4×1 training matrix with values 0, 2, 0, 2. -/
def X2 : QMat := ⟨4, 1, fun i _ => if i = 0 ∨ i = 2 then 0 else 2⟩

/-- C2 example labels: classes 0 and 1, two rows each. -/
def Y2 : List ℤ := [0, 0, 1, 1]

/-- C3 counterexample model: a fitted shape with `n = 4` training rows,
`p = 2` features, identity eigenvectors. -/
def M3c : LDModel :=
  ⟨4, 2, 2, [.fin 0, .fin 0], [[0, 0], [1, 1]], [[1, 0], [0, 1]], [.fin 1, .fin 1]⟩

/-- C3 counterexample input: 3 rows (differing from the 4 training rows),
2 columns. -/
def X3c : QMat := ⟨3, 2, fun _ _ => 1⟩

/-- C3 witness model: fitted shape with `n = 2`, `p = 2`. -/
def M3w : LDModel :=
  ⟨2, 2, 2, [.fin 0, .fin 0], [[0, 0], [1, 1]], [[1, 2], [3, 4]], [.fin 1, .fin 1]⟩

/-- C3 witness input: 2×2 matrix with entry `i + j`. -/
def X3w : QMat := ⟨2, 2, fun i j => (i : ℚ) + (j : ℚ)⟩

/-- C6 witness model: two classes, one feature, scores 0 and 1. -/
def W6 : LDModel := ⟨3, 1, 2, [.fin 0, .fin 1], [[0], [0]], [[1]], [.fin 1]⟩

/-- C7 witness model: one feature. -/
def W7 : LDModel := ⟨3, 1, 2, [.fin 0, .fin 0], [[0], [0]], [[1]], [.fin 1]⟩

/-- C9 counterexample model: an eigenvalue of exactly zero magnitude. -/
def M9 : LDModel := ⟨3, 1, 2, [.fin 0, .fin 0], [[0], [0]], [[1]], [.fin 0]⟩

/-- C9 witness model: zero eigenvalue magnitude, two features. -/
def W9 : LDModel :=
  ⟨3, 2, 2, [.fin 0, .fin 0], [[0, 0], [1, 1]], [[1, 0], [0, 1]], [.fin 0, .fin 2]⟩

/-- C10 witness model: every class score is `NaN` (NaN constant terms). -/
def W10 : LDModel := ⟨3, 1, 2, [.nan, .nan], [[0], [0]], [[1]], [.fin 1]⟩

theorem flt_irrefl (a : FloatVal) : flt a a = false := by
  rcases a with _ | s | a
  · rfl
  · simp [flt]
  · simp [flt]

theorem flt_trans {a b c : FloatVal} (h1 : flt a b = true) (h2 : flt b c = true) :
    flt a c = true := by
  rcases a with _ | s | a <;> rcases b with _ | t | b <;> rcases c with _ | u | c <;>
    simp_all [flt] <;> linarith

theorem flt_total {a b : FloatVal} (ha : a.isNaN = false) (hb : b.isNaN = false) :
    flt a b = true ∨ flt b a = true ∨ a = b := by
  rcases a with _ | s | a
  · simp [FloatVal.isNaN] at ha
  · rcases b with _ | t | b
    · simp [FloatVal.isNaN] at hb
    · rcases s <;> rcases t <;> simp [flt]
    · rcases s <;> simp [flt]
  · rcases b with _ | t | b
    · simp [FloatVal.isNaN] at hb
    · rcases t <;> simp [flt]
    · simp only [flt, decide_eq_true_eq]
      rcases lt_trichotomy a b with h | h | h
      · exact Or.inl h
      · exact Or.inr (Or.inr (by rw [h]))
      · exact Or.inr (Or.inl h)

theorem flt_negInf_eq {b : FloatVal} (hb : b.isNaN = false)
    (h : flt (FloatVal.inf false) b = false) : b = FloatVal.inf false := by
  rcases b with _ | t | b <;> simp_all [flt, FloatVal.isNaN]

theorem scan_succ (s : ℕ → FloatVal) (k : ℕ) :
    predictScan s (k + 1) = step s (predictScan s k) k := by
  unfold predictScan
  rw [List.range_succ, List.foldl_append, List.foldl_cons, List.foldl_nil]

theorem scanInv_step (s : ℕ → FloatVal) (k i : ℕ) (acc : ℕ × FloatVal)
    (hik : i < k) (hnn : ∀ j, j < k → (s j).isNaN = false)
    (h : ScanInv s i acc) : ScanInv s (i + 1) (step s acc i) := by
  obtain ⟨ha, hb, hc, hd⟩ := h
  have hacc2 : acc.2.isNaN = false := by
    rcases ha with ha | ha
    · rcases hc with hc | hc
      · rw [hc]; exact hnn acc.1 (Nat.lt_trans ha hik)
      · rw [hc]; rfl
    · rw [ha]; rfl
  cases hf : flt acc.2 (s i) with
  | true =>
    have hstep : step s acc i = (i, s i) := by simp [step, hf]
    rw [hstep]
    refine ⟨Or.inl (Nat.lt_succ_self i), ?_, Or.inl rfl, ?_⟩
    · intro j hj
      rcases Nat.lt_succ_iff_lt_or_eq.mp hj with hj | hj
      · by_contra hcon
        have hcon' : flt (s i) (s j) = true := by
          cases hx : flt (s i) (s j)
          · exact absurd hx hcon
          · rfl
        have : flt acc.2 (s j) = true := flt_trans hf hcon'
        rw [hb j hj] at this
        exact Bool.false_ne_true this
      · rw [hj]; exact flt_irrefl (s i)
    · intro j hj
      rcases flt_total (hnn j (Nat.lt_trans hj hik)) hacc2 with h1 | h2 | h3
      · exact flt_trans h1 hf
      · rw [hb j hj] at h2; exact absurd h2 Bool.false_ne_true
      · rw [h3]; exact hf
  | false =>
    have hstep : step s acc i = acc := by simp [step, hf]
    rw [hstep]
    refine ⟨?_, ?_, hc, hd⟩
    · rcases ha with ha | ha
      · exact Or.inl (Nat.lt_succ_of_lt ha)
      · exact Or.inr ha
    · intro j hj
      rcases Nat.lt_succ_iff_lt_or_eq.mp hj with hj | hj
      · exact hb j hj
      · rw [hj]; exact hf

theorem scanInv_holds (s : ℕ → FloatVal) (k : ℕ)
    (hnn : ∀ j, j < k → (s j).isNaN = false) :
    ∀ i, i ≤ k → ScanInv s i (predictScan s i) := by
  intro i
  induction i with
  | zero =>
    intro _
    exact ⟨Or.inr rfl, fun j hj => absurd hj (Nat.not_lt_zero j), Or.inr rfl,
      fun j hj => absurd hj (Nat.not_lt_zero j)⟩
  | succ m ih =>
    intro hm
    rw [scan_succ]
    exact scanInv_step s k m (predictScan s m) (Nat.lt_of_succ_le hm) hnn
      (ih (Nat.le_of_lt (Nat.lt_of_succ_le hm)))

theorem scan_fst_lt (s : ℕ → FloatVal) : ∀ k, 1 ≤ k → (predictScan s k).1 < k := by
  intro k
  induction k with
  | zero => omega
  | succ m ih =>
    intro _
    rw [scan_succ]
    cases hf : flt (predictScan s m).2 (s m) with
    | true => simp [step, hf]
    | false =>
      have hstep : step s (predictScan s m) m = predictScan s m := by simp [step, hf]
      rw [hstep]
      rcases Nat.eq_zero_or_pos m with hm | hm
      · subst hm
        have : predictScan s 0 = (0, FloatVal.inf false) := rfl
        rw [this]
        exact Nat.zero_lt_one
      · exact Nat.lt_succ_of_lt (ih hm)

theorem scan_stuck (s : ℕ → FloatVal) :
    ∀ k, (∀ i, i < k → flt (FloatVal.inf false) (s i) = false) →
      predictScan s k = (0, FloatVal.inf false) := by
  intro k
  induction k with
  | zero => intro _; rfl
  | succ m ih =>
    intro h
    rw [scan_succ, ih (fun i hi => h i (Nat.lt_succ_of_lt hi))]
    simp [step, h m (Nat.lt_succ_self m)]

theorem mem_sortedLabels {a : ℤ} {y : List ℤ} : a ∈ sortedLabels y ↔ a ∈ y := by
  unfold sortedLabels
  rw [(List.perm_insertionSort _ _).mem_iff, List.mem_dedup]

theorem checkLabelsAux_nogap : ∀ (prev : ℤ) (t : List ℤ), checkLabelsAux prev t = none →
    ∀ i, i + 1 < (prev :: t).length →
      (prev :: t).getD (i + 1) 0 - (prev :: t).getD i 0 ≤ 1 := by
  intro prev t
  induction t generalizing prev with
  | nil => intro _ i hi; simp at hi
  | cons h t ih =>
    intro hnone i hi
    unfold checkLabelsAux at hnone
    split_ifs at hnone with h1 h2
    · cases i with
      | zero =>
        simp only [List.getD_cons_succ, List.getD_cons_zero]
        exact not_lt.mp h2
      | succ m =>
        apply ih h hnone m
        simp only [List.length_cons] at hi ⊢
        omega

theorem checkLabels_nogap {L : List ℤ} (h : checkLabels L = none) :
    ∀ i, i + 1 < L.length → L.getD (i + 1) 0 - L.getD i 0 ≤ 1 := by
  cases L with
  | nil => intro i hi; simp at hi
  | cons a t =>
    simp only [checkLabels] at h
    split_ifs at h with h1
    exact checkLabelsAux_nogap a t h

/-- C5: for every input where the labels omit 0, or have a gap in the
sorted distinct labels, or only one distinct class is present, or the row
count `n` is not strictly greater than the class count `k`,
`LinearDiscriminant` returns a recoverable error value (a `some` result of
the total embedding — every such input exits through one of the `return
fmt.Errorf(...)` statements of lda.go:42-86, none of which panics). -/
theorem LinearDiscriminant_rejects_bad_labels (n p : ℕ) (y : List ℤ) (ld : LDState)
    (h : 0 ∉ y ∨
      (∃ i, i + 1 < (sortedLabels y).length ∧
        1 < (sortedLabels y).getD (i + 1) 0 - (sortedLabels y).getD i 0) ∨
      (sortedLabels y).length = 1 ∨ n ≤ (sortedLabels y).length) :
    ((LinearDiscriminant n p y ld).2).isSome = true := by
  unfold LinearDiscriminant
  split_ifs with h1 h2 h3 h4 h5 h6 h7
  · rfl
  · rfl
  · rfl
  · exact Option.isSome_iff_ne_none.mpr h4
  · rfl
  · rfl
  · rfl
  · exfalso
    rcases h with h | ⟨i, hi, hgap⟩ | h | h
    · apply h
      rw [← mem_sortedLabels]
      rcases hL : sortedLabels y with _ | ⟨a, t⟩
      · exact absurd hL h2
      · have ha : a = 0 := by
          have := not_ne_iff.mp h3
          rw [hL] at this
          simpa using this
        rw [ha]
        exact List.mem_cons_self 0 t
    · have := checkLabels_nogap (not_ne_iff.mp h4) i hi
      linarith
    · omega
    · exact h7 h

/-- C5 witness: a single class `[0]` with `n = 1` is rejected. -/
theorem LinearDiscriminant_rejects_bad_labels_witness :
    (sortedLabels [0]).length = 1 ∧
      ((LinearDiscriminant 1 1 [0] ⟨0, 0, 0⟩).2).isSome = true :=
  ⟨by decide, LinearDiscriminant_rejects_bad_labels 1 1 [0] ⟨0, 0, 0⟩
    (Or.inr (Or.inr (Or.inl (by decide))))⟩

/-- C4 counterexample: a failing fit (label slice of length 1 against a
2×2 matrix, rejected with the size-mismatch error at lda.go:42) leaves the
receiver changed — `ld.n` and `ld.p` were already overwritten at lda.go:40
before the check ran, so the zero-valued receiver does not come back
unchanged. -/
theorem LinearDiscriminant_mutates_on_failure :
    ((LinearDiscriminant 2 2 [0] ⟨0, 0, 0⟩).2).isSome = true ∧
      (LinearDiscriminant 2 2 [0] ⟨0, 0, 0⟩).1 ≠ (⟨0, 0, 0⟩ : LDState) := by
  decide

/-- C4 amended: on every failing fit the receiver retains partial state:
`ld.n` and `ld.p` always hold the dimensions of the rejected `x`
(assigned at lda.go:40 before any validation), and `ld.k` is either still
its previous value (failures up to the label scan) or already overwritten
with the distinct-label count (assigned at lda.go:78, before the
class-count and sample-size failures).  `mu`, `ct` and the eigen state are
not written on any failure path (their first writes, lda.go:105-129 and
164, come after the last error return). -/
theorem LinearDiscriminant_partial_state_on_failure (n p : ℕ) (y : List ℤ) (ld : LDState)
    (h : ((LinearDiscriminant n p y ld).2).isSome = true) :
    (LinearDiscriminant n p y ld).1.n = n ∧ (LinearDiscriminant n p y ld).1.p = p ∧
      ((LinearDiscriminant n p y ld).1.k = ld.k ∨
        (LinearDiscriminant n p y ld).1.k = (sortedLabels y).length) := by
  clear h
  unfold LinearDiscriminant
  split_ifs <;> exact ⟨rfl, rfl, by first | exact Or.inl rfl | exact Or.inr rfl⟩

/-- C4 witness: the amended statement at the concrete failing fit. -/
theorem LinearDiscriminant_partial_state_on_failure_witness :
    ((LinearDiscriminant 2 2 [0] ⟨0, 0, 0⟩).2).isSome = true ∧
      ((LinearDiscriminant 2 2 [0] ⟨0, 0, 0⟩).1.n = 2 ∧
        (LinearDiscriminant 2 2 [0] ⟨0, 0, 0⟩).1.p = 2 ∧
        ((LinearDiscriminant 2 2 [0] ⟨0, 0, 0⟩).1.k = (⟨0, 0, 0⟩ : LDState).k ∨
          (LinearDiscriminant 2 2 [0] ⟨0, 0, 0⟩).1.k = (sortedLabels [0]).length)) :=
  ⟨by decide, LinearDiscriminant_partial_state_on_failure 2 2 [0] ⟨0, 0, 0⟩ (by decide)⟩

/-- C1: the fit does not fail on a zero within-class-variance feature.
`X1` has a constant first column, so the within-class scatter diagonal
entry for feature 0 is exactly 0 and the degrees-of-freedom-normalized
value is below `tol² = 1e-8` — the spec requires a near-singular
covariance error here — yet `LinearDiscriminant` returns `nil`: the
squared tolerance computed at lda.go:144 is never compared against
anything (the error result of the fit depends only on the dimensions and
the labels, never on the entries of `x`), so the fit "succeeds". -/
theorem LinearDiscriminant_no_singularity_check :
    Cw X1 Y1 0 0 = 0 ∧ SwSpec X1 Y1 0 0 < tolQ * tolQ ∧
      (LinearDiscriminant 5 2 Y1 ⟨0, 0, 0⟩).2 = none := by
  refine ⟨?_, ?_, ?_⟩
  · norm_num [Cw, muVal, X1, Y1, ni, Finset.sum_range_succ, List.getD]
  · norm_num [SwSpec, numClasses, Cw, muVal, X1, Y1, ni, tolQ, Finset.sum_range_succ,
      List.getD, sortedLabels]
  · unfold LinearDiscriminant
    rw [if_neg (by decide), if_neg (by decide), if_neg (by decide), if_neg (by decide),
      if_neg (by decide), if_neg (by norm_num [tolQ]), if_neg (by decide)]

/-- C2 counterexample: for the 4×1 training set `X2` with classes `Y2`
(`n = 4`, `k = 2`), the scatter entry accumulated at lda.go:137-143 — the
matrix handed unchanged to `CwInverse.Inverse` at lda.go:161 — is `4`,
while the degrees-of-freedom-normalized value demanded by the claim is
`4 / (n - k) = 2`: no entry is divided by `(n - k)` before the
inversion. -/
theorem Cw_unnormalized_counterexample :
    Cw X2 Y2 0 0 = 4 ∧ SwSpec X2 Y2 0 0 = 2 ∧ Cw X2 Y2 0 0 ≠ SwSpec X2 Y2 0 0 := by
  refine ⟨?_, ?_, ?_⟩
  · norm_num [Cw, muVal, X2, Y2, ni, Finset.sum_range_succ, List.getD]
  · norm_num [SwSpec, numClasses, Cw, muVal, X2, Y2, ni, sortedLabels,
      Finset.sum_range_succ, List.getD]
  · norm_num [SwSpec, numClasses, Cw, muVal, X2, Y2, ni, sortedLabels,
      Finset.sum_range_succ, List.getD]

/-- C2 amended: no degrees-of-freedom division happens — the matrix
inverted at lda.go:161 is the raw accumulated scatter matrix, and at every
nonzero entry it differs from the `(n - k)`-normalized matrix of the spec
whenever `n - k ≠ 1`. -/
theorem Cw_inverted_without_normalization (x : QMat) (y : List ℤ) (j l : ℕ)
    (hnz : Cw x y j l ≠ 0) (h1 : ((x.rows : ℚ) - (numClasses y : ℚ)) ≠ 1) :
    Cw x y j l ≠ SwSpec x y j l := by
  unfold SwSpec
  intro h
  rcases eq_or_ne ((x.rows : ℚ) - (numClasses y : ℚ)) 0 with h0 | h0
  · rw [h0, div_zero] at h
    exact hnz h
  · have hmul : Cw x y j l * ((x.rows : ℚ) - (numClasses y : ℚ)) = Cw x y j l := by
      conv_lhs => rw [h]
      rw [div_mul_cancel₀ _ h0]
    have hz : Cw x y j l * (((x.rows : ℚ) - (numClasses y : ℚ)) - 1) = 0 := by
      rw [mul_sub, hmul, mul_one, sub_self]
    rcases mul_eq_zero.mp hz with hh | hh
    · exact hnz hh
    · exact h1 (by linarith)

/-- C2 witness: the amended statement at the concrete training set. -/
theorem Cw_inverted_without_normalization_witness :
    Cw X2 Y2 0 0 ≠ 0 ∧ ((X2.rows : ℚ) - (numClasses Y2 : ℚ)) ≠ 1 ∧
      Cw X2 Y2 0 0 ≠ SwSpec X2 Y2 0 0 :=
  ⟨by norm_num [Cw, muVal, X2, Y2, ni, Finset.sum_range_succ, List.getD],
   by norm_num [X2, numClasses, sortedLabels, Y2],
   Cw_inverted_without_normalization X2 Y2 0 0
     (by norm_num [Cw, muVal, X2, Y2, ni, Finset.sum_range_succ, List.getD])
     (by norm_num [X2, numClasses, sortedLabels, Y2])⟩

/-- C3 counterexample: a fitted model trained on `n = 4` rows and an input
matrix with `m = 3` rows (`m ≠ n`) of the correct `p = 2` columns, with
`targetDims = 1` in range: the claim demands a 3×1 result, but
`Transform` preallocates the result as `ld.n × targetDims`
(`mat.NewDense(ld.n, n, nil)`, lda.go:208) and `result.Mul(x, W)` panics
on the shape mismatch (modelled as `none`) — no matrix with `m` rows is
returned. -/
theorem Transform_row_mismatch_counterexample : Transform M3c X3c 1 = none := by
  rfl

/-- C3 amended: for input matrices whose row count equals the training row
count `n` (as the method documents: "an ld.n × p matrix x", lda.go:195)
and whose column count is `p`, and for `1 ≤ targetDims ≤ p`, `Transform`
returns an `n × targetDims` matrix equal to `x` multiplied by the matrix
whose columns are the first `targetDims` columns of the real parts of the
eigenvectors. -/
theorem Transform_shape_correct (ld : LDModel) (x : QMat) (t : ℕ)
    (hn : 1 ≤ ld.n) (ht : 1 ≤ t) (htp : t ≤ ld.p)
    (hc : x.cols = ld.p) (hr : x.rows = ld.n) :
    ∃ r, Transform ld x t = some r ∧ r.rows = x.rows ∧ r.cols = t ∧
      ∀ i j, r.entry i j =
        ∑ l ∈ Finset.range ld.p, x.entry i l * (ld.evecs.getD l []).getD j 0 := by
  unfold Transform
  split_ifs with h1 h2 h3 h4
  · exact absurd h1 (by omega)
  · exact absurd h2 (by omega)
  · exact absurd h3 (by omega)
  · exact absurd h4 (by
      push_neg
      exact ⟨hc, hr⟩)
  · exact ⟨_, rfl, hr.symm, rfl, fun i j => rfl⟩

/-- C3 witness: the amended statement at a concrete model and input. -/
theorem Transform_shape_correct_witness :
    X3w.rows = M3w.n ∧ X3w.cols = M3w.p ∧
      (∃ r, Transform M3w X3w 2 = some r ∧ r.rows = X3w.rows ∧ r.cols = 2 ∧
        ∀ i j, r.entry i j =
          ∑ l ∈ Finset.range M3w.p, X3w.entry i l * (M3w.evecs.getD l []).getD j 0) :=
  ⟨rfl, rfl, Transform_shape_correct M3w X3w 2 (by decide) (by decide) (by decide) rfl rfl⟩

theorem Predict_ok_of_length {ld : LDModel} {x : List ℚ} (hx : x.length = ld.p) :
    Predict ld x = Except.ok (predictScan (score ld x) ld.k).1 := by
  unfold Predict
  rw [if_neg (fun hc => hc hx)]

/-- C6: on a fitted model (at least one class) and an input of the trained
length, whenever every per-class score is a (comparable, non-NaN) value,
`Predict` returns with nil error the class whose score no other class
strictly exceeds, and every class scanned before it scored strictly less —
i.e. the lowest class index attaining the maximum of
`f_i = ct[i] - 0.5 * sum_j (u_j^2 / |eigenvalue_j|)`, `u = evecs^T (x - mu_i)`,
wins ties, exactly as the single left-to-right scan with the strict
`max < f` update of lda.go:253-256 determines. -/
theorem Predict_returns_least_argmax (ld : LDModel) (x : List ℚ)
    (hk : 1 ≤ ld.k) (hx : x.length = ld.p)
    (hnn : ∀ i, i < ld.k → (score ld x i).isNaN = false) :
    ∃ y, Predict ld x = Except.ok y ∧ y < ld.k ∧
      (∀ j, j < ld.k → flt (score ld x y) (score ld x j) = false) ∧
      (∀ j, j < y → flt (score ld x j) (score ld x y) = true) := by
  obtain ⟨ha, hb, hc, hd⟩ := scanInv_holds (score ld x) ld.k hnn ld.k le_rfl
  refine ⟨(predictScan (score ld x) ld.k).1, Predict_ok_of_length hx, ?_, ?_, ?_⟩
  · rcases ha with ha | ha
    · exact ha
    · rw [ha]; exact hk
  · intro j hj
    have hj' := hb j hj
    rcases hc with hc | hc
    · rw [hc] at hj'; exact hj'
    · have h0 : flt (FloatVal.inf false) (score ld x 0) = false := by
        have hb0 := hb 0 hk
        rw [hc] at hb0
        exact hb0
      have hs0 : score ld x 0 = FloatVal.inf false := flt_negInf_eq (hnn 0 hk) h0
      rw [hc] at hj' ⊢
      rw [hs0]
      exact hj'
  · intro j hj
    have hj' := hd j hj
    rcases hc with hc | hc
    · rw [hc] at hj'; exact hj'
    · rw [hc] at hj
      simp at hj

/-- C6 witness: a model with finite distinct scores 0 and 1; class 1 wins. -/
theorem Predict_returns_least_argmax_witness :
    (1 ≤ W6.k) ∧ (([0] : List ℚ).length = W6.p) ∧
      (∃ y, Predict W6 [0] = Except.ok y ∧ y < W6.k ∧
        (∀ j, j < W6.k → flt (score W6 [0] y) (score W6 [0] j) = false) ∧
        (∀ j, j < y → flt (score W6 [0] j) (score W6 [0] y) = true)) :=
  ⟨by decide, by decide,
   Predict_returns_least_argmax W6 [0] (by decide) (by decide) (by
     intro i hi
     have hi2 : i < 2 := hi
     interval_cases i <;>
       norm_num [score, scoreTerm, uVal, dVal, W6, fdiv, fadd, fmul, fsub, fneg,
         FloatVal.isNaN, List.range_succ, List.range_zero, Finset.sum_range_succ,
         Finset.sum_range_zero, List.getD])⟩

/-- C7: `Predict` rejects exactly the inputs whose length differs from the
trained feature count `p`: a wrong length yields the invalid-input-size
error of lda.go:229-231, and a correct length never fails (the body after
the check always returns a class index with a nil error, lda.go:258). -/
theorem Predict_dimension_check (ld : LDModel) (x : List ℚ) :
    (x.length ≠ ld.p → Predict ld x = Except.error "Invalid input vector size") ∧
    (x.length = ld.p → ∃ y, Predict ld x = Except.ok y) := by
  constructor
  · intro h
    unfold Predict
    rw [if_pos h]
  · intro h
    exact ⟨_, Predict_ok_of_length h⟩

/-- C7 witness: length 2 against `p = 1` errors; length 1 succeeds. -/
theorem Predict_dimension_check_witness :
    Predict W7 [1, 2] = Except.error "Invalid input vector size" ∧
      (∃ y, Predict W7 [1] = Except.ok y) :=
  ⟨(Predict_dimension_check W7 [1, 2]).1 (by decide),
   (Predict_dimension_check W7 [1]).2 (by decide)⟩

/-- C8: neither `Transform` (lda.go:201-212) nor `Predict` (lda.go:227-259)
assigns to any field of the receiver — in the state-passing embedding both
return the model component unchanged for every model and every input. -/
theorem Transform_Predict_no_mutation (ld : LDModel) (x : QMat) (t : ℕ) (v : List ℚ) :
    (TransformS ld x t).1 = ld ∧ (PredictS ld v).1 = ld :=
  ⟨rfl, rfl⟩

/-- C9 counterexample: a model whose only eigenvalue magnitude is exactly
zero.  `Predict` computes the score term of lda.go:250 by the raw division
`u² / |eigenvalue|` with no guard: the term is `1 / 0 = +Inf`, the class
score becomes `-Inf`, and prediction proceeds — nothing substitutes a
sentinel divisor, and nothing at fit time rejects such a model (the fit
error never depends on the numeric data, as `LinearDiscriminant` shows). -/
theorem Predict_divides_by_zero_counterexample :
    M9.evalAbs.getD 0 FloatVal.nan = FloatVal.fin 0 ∧
      scoreTerm M9 [1] 0 0 = FloatVal.inf true ∧
      score M9 [1] 0 = FloatVal.inf false ∧
      Predict M9 [1] = Except.ok 0 := by
  refine ⟨rfl, ?_, ?_, ?_⟩
  · norm_num [scoreTerm, uVal, dVal, M9, fdiv, Finset.sum_range_succ, Finset.sum_range_zero,
      List.getD]
  · norm_num [score, scoreTerm, uVal, dVal, M9, fdiv, fadd, fmul, fsub, fneg,
      List.range_succ, List.range_zero, Finset.sum_range_succ, Finset.sum_range_zero,
      List.getD]
  · norm_num [Predict, predictScan, step, M9, score, scoreTerm, uVal, dVal, fdiv, fadd,
      fmul, fsub, fneg, flt, List.range_succ, List.range_zero, Finset.sum_range_succ,
      Finset.sum_range_zero, List.getD]

/-- C9 amended: `Predict` applies no guard at all — the term of lda.go:250
is the raw IEEE division by the eigenvalue magnitude even when that
magnitude is exactly zero (the divisor is substituted untouched), and the
call still completes with a nil error and a class index, because a Go
float division by zero yields an infinity rather than a fault. -/
theorem Predict_unguarded_division (ld : LDModel) (x : List ℚ) (j : ℕ)
    (hx : x.length = ld.p) (hj : ld.evalAbs.getD j FloatVal.nan = FloatVal.fin 0) :
    (∃ y, Predict ld x = Except.ok y) ∧
      scoreTerm ld x 0 j =
        fdiv (FloatVal.fin (uVal ld x 0 j * uVal ld x 0 j)) (FloatVal.fin 0) := by
  constructor
  · exact ⟨_, Predict_ok_of_length hx⟩
  · unfold scoreTerm
    rw [hj]

/-- C9 witness: the amended statement at a concrete model with a zero
eigenvalue magnitude. -/
theorem Predict_unguarded_division_witness :
    (([1, 1] : List ℚ).length = W9.p) ∧
      (W9.evalAbs.getD 0 FloatVal.nan = FloatVal.fin 0) ∧
      ((∃ y, Predict W9 [1, 1] = Except.ok y) ∧
        scoreTerm W9 [1, 1] 0 0 =
          fdiv (FloatVal.fin (uVal W9 [1, 1] 0 0 * uVal W9 [1, 1] 0 0)) (FloatVal.fin 0)) :=
  ⟨by decide, rfl, Predict_unguarded_division W9 [1, 1] 0 (by decide) rfl⟩

/-- C10: on any model with at least one class and any input of the trained
length, `Predict` returns a nil error and a class index below `k` (the
result starts at 0 and is only ever reassigned to a scanned class index,
lda.go:232-256); and whenever no class score exceeds the initial maximum
`-Inf` — in particular when every score is `NaN` or `-Inf` — the returned
index is exactly the initial 0. -/
theorem Predict_index_in_range (ld : LDModel) (x : List ℚ)
    (hk : 1 ≤ ld.k) (hx : x.length = ld.p) :
    (∃ y, Predict ld x = Except.ok y ∧ y < ld.k) ∧
      ((∀ i, i < ld.k → flt (FloatVal.inf false) (score ld x i) = false) →
        Predict ld x = Except.ok 0) := by
  constructor
  · exact ⟨_, Predict_ok_of_length hx, scan_fst_lt (score ld x) ld.k hk⟩
  · intro h
    rw [Predict_ok_of_length hx, scan_stuck (score ld x) ld.k h]

/-- C10 witness: a model whose constant terms are `NaN`, so every class
score is `NaN`; `Predict` still returns nil error and class 0. -/
theorem Predict_index_in_range_witness :
    (1 ≤ W10.k) ∧ (([0] : List ℚ).length = W10.p) ∧
      (∃ y, Predict W10 [0] = Except.ok y ∧ y < W10.k) ∧
      Predict W10 [0] = Except.ok 0 :=
  ⟨by decide, by decide, (Predict_index_in_range W10 [0] (by decide) (by decide)).1,
   (Predict_index_in_range W10 [0] (by decide) (by decide)).2 (by
     intro i hi
     have hi2 : i < 2 := hi
     interval_cases i <;>
       norm_num [score, scoreTerm, uVal, dVal, W10, fdiv, fadd, fmul, fsub, fneg, flt,
         List.range_succ, List.range_zero, Finset.sum_range_succ, Finset.sum_range_zero,
         List.getD])⟩
